import Mathlib

/-
Verification of the lazy-import subsystem ("deferred").

The repository ships only the package front matter (`__init__.py`), the test
suite and a benchmark; the implementation module `deferred/_core.py` (the
instrumenter, the loader, the proxy/key pair and the hook API) is not among
the source files.  Every definition below that stands in for that module is
therefore modelled from the specification's words (marked
"Modelled from the spec:"), and the claims are settled against these models.
-/

namespace Deferred

/-- Source position of a statement: one-based line and one-based column,
as the host's syntax-error reports them. -/
structure Loc where
  lineno : Nat
  offset : Nat
deriving DecidableEq, Repr

/-- Modelled from the spec: the host's standard syntax-error value raised by the
missing instrumenter (`deferred/_core.py`), with fields filename, one-based
line number, one-based column, and the exact offending source text. -/
structure SynErr where
  filename : String
  lineno : Nat
  offset : Nat
  text : String
deriving DecidableEq, Repr

/-- Modelled from the spec: the statements of a source file that the missing
instrumenter distinguishes.  Each statement carries its location and its exact
source segment (for `withDefer` the segment is the complete, possibly
multi-line, source of the block including the `with` header line). -/
inductive Stmt where
  | importStmt (names : List (List String × Option String)) (loc : Loc) (segment : String)
  | importFrom (level : Nat) (module : List String) (names : List (String × Option String))
      (loc : Loc) (segment : String)
  | importFromStar (level : Nat) (module : List String) (loc : Loc) (segment : String)
  | withDefer (body : List Stmt) (loc : Loc) (segment : String)
  | classDef (cname : String) (body : List Stmt) (loc : Loc) (segment : String)
  | funcDef (fname : String) (body : List Stmt) (loc : Loc) (segment : String)
  | other (loc : Loc) (segment : String)
deriving Repr

/-- The location carried by a statement. -/
def stmtLoc : Stmt → Loc
  | .importStmt _ l _ => l
  | .importFrom _ _ _ l _ => l
  | .importFromStar _ _ l _ => l
  | .withDefer _ l _ => l
  | .classDef _ _ l _ => l
  | .funcDef _ _ l _ => l
  | .other l _ => l

/-- The exact source segment carried by a statement. -/
def stmtSegment : Stmt → String
  | .importStmt _ _ s => s
  | .importFrom _ _ _ _ s => s
  | .importFromStar _ _ _ s => s
  | .withDefer _ _ s => s
  | .classDef _ _ _ s => s
  | .funcDef _ _ _ s => s
  | .other _ s => s

/-- Reserved prefix-escaped alias under which the key class is imported;
the "@" prefix cannot appear in a user identifier. -/
def keyClassAlias : String := "@DeferredImportKey"

/-- Reserved prefix-escaped alias under which the proxy class is imported. -/
def proxyClassAlias : String := "@DeferredImportProxy"

/-- Reserved block variable capturing `locals()`. -/
def localNsVar : String := "@local_ns"

/-- Reserved block temp-proxy variable. -/
def tempProxyVar : String := "@temp_proxy"

/-- Modelled from the spec: the statements the missing instrumenter emits.
Each constructor records the concrete names it is emitted with. -/
inductive OutStmt where
  | importKeyProxyClasses (keyAlias proxyAlias : String)
  | captureLocals (nsVar : String)
  | initTempProxy (tempVar : String)
  | orig (s : Stmt)
  | ifProxyRebind (boundName proxyAlias nsVar keyAlias tempVar : String)
  | delName (x : String)
  | withDeferOut (body : List OutStmt)
deriving Repr

/-- Is the statement one of the two forms a marker block may contain:
a plain import, or a `from M import N [as A]` (wildcard excluded)? -/
def isDeferBlockImport : Stmt → Bool
  | .importStmt _ _ _ => true
  | .importFrom _ _ _ _ _ => true
  | _ => false

/-- The local names an import statement binds (the binding-name rule):
`import X.Y.Z` binds the top name `X`; an `as A` alias binds `A`;
`from M import N` binds `N`. -/
def bindingNames : Stmt → List String
  | .importStmt names _ _ => names.map (fun a => a.2.getD (a.1.headD ""))
  | .importFrom _ _ names _ _ => names.map (fun a => a.2.getD a.1)
  | _ => []

/-- The conditional pop/reinsert statements appended after one import
statement, one per bound name. -/
def rebindsFor (s : Stmt) : List OutStmt :=
  (bindingNames s).map
    (fun n => .ifProxyRebind n proxyClassAlias localNsVar keyClassAlias tempProxyVar)

/-- The rewritten body of a valid marker block: each import statement left in
place, immediately followed by its conditional rebinds. -/
def rewriteBlockImports : List Stmt → List OutStmt
  | [] => []
  | s :: rest => .orig s :: (rebindsFor s ++ rewriteBlockImports rest)

mutual

/-- The first marker-context block found inside a statement's nested bodies
(class and function bodies), with its location and source segment. -/
def stmtContainsDefer : Stmt → Option (Loc × String)
  | .withDefer _ loc seg => some (loc, seg)
  | .classDef _ body _ _ => stmtsContainDefer body
  | .funcDef _ body _ _ => stmtsContainDefer body
  | _ => none

/-- The first marker-context block found in a list of statements. -/
def stmtsContainDefer : List Stmt → Option (Loc × String)
  | [] => none
  | s :: rest =>
    match stmtContainsDefer s with
    | some r => some r
    | none => stmtsContainDefer rest

end

/-- Modelled from the spec: content validation and rewrite of a marker block's
body by the missing instrumenter.  The first statement that is not a
plain import or a (non-wildcard) from-import is rejected with the host's
syntax-error carrying that statement's own location and source text. -/
def instrumentBlockBody (filename : String) : List Stmt → Except SynErr (List OutStmt)
  | [] => .ok []
  | s :: rest =>
    if isDeferBlockImport s then
      match instrumentBlockBody filename rest with
      | .ok tail => .ok (.orig s :: (rebindsFor s ++ tail))
      | .error e => .error e
    else
      .error ⟨filename, (stmtLoc s).lineno, (stmtLoc s).offset, stmtSegment s⟩

/-- The body of a statement when it is a marker-context block. -/
def asWithDefer : Stmt → Option (List Stmt)
  | .withDefer body _ _ => some body
  | _ => none

/-- Modelled from the spec: the missing instrumenter's walk over the module
body.  A marker block at module top level is rewritten; a marker block nested
inside a class or function body is rejected with the `with` statement's own
location and full source segment.  The returned flag records whether any
marker block was rewritten. -/
def instrumentModuleBody (filename : String) :
    List Stmt → Except SynErr (List OutStmt × Bool)
  | [] => .ok ([], false)
  | s :: rest =>
    match asWithDefer s with
    | some body =>
      match instrumentBlockBody filename body with
      | .error e => .error e
      | .ok inner =>
        match instrumentModuleBody filename rest with
        | .error e => .error e
        | .ok (tail, _) =>
          .ok (.withDeferOut
                (.captureLocals localNsVar :: .initTempProxy tempProxyVar ::
                  (inner ++ [.delName tempProxyVar, .delName localNsVar])) ::
               .delName keyClassAlias :: .delName proxyClassAlias :: tail, true)
    | none =>
      match stmtContainsDefer s with
      | some r => .error ⟨filename, r.1.lineno, r.1.offset, r.2⟩
      | none =>
        match instrumentModuleBody filename rest with
        | .error e => .error e
        | .ok (tail, found) => .ok (.orig s :: tail, found)

/-- Modelled from the spec: the missing instrumenter (`DeferredInstrumenter`)
applied to a whole module.  When at least one marker block was rewritten, a
single import of the key class and proxy class under the reserved aliases is
inserted as the first statement of the file. -/
def instrument (filename : String) (body : List Stmt) : Except SynErr (List OutStmt) :=
  match instrumentModuleBody filename body with
  | .error e => .error e
  | .ok (out, found) =>
    .ok (if found then .importKeyProxyClasses keyClassAlias proxyClassAlias :: out else out)

/-
Runtime model.  Module objects are identified by their fully qualified dotted
name (a `List String`), which is what makes "the very same module object" a
decidable statement: the host's import primitive, called twice for one name,
returns the one module recorded in its module table.
-/

/-- Modelled from the spec: the original import form a deferred proxy stands
for, which fixes both its diagnostic text and its resolution value.
`plain` is `import A.B.C` bound to the top name (value: the top module);
`sub` is a dotted import bound to its leaf by an alias or a submodule child
proxy (value: the deepest submodule); `fromImp` is `from M import N`
(value: attribute `N` of module `M`). -/
inductive ImportForm where
  | plain (target : List String)
  | sub (target : List String)
  | fromImp (origin : List String) (attr : String)
deriving DecidableEq, Repr

/-- Modelled from the spec: the deferred proxy (class `DeferredImportProxy`
of the missing `deferred/_core.py`): an import form plus the mapping
`submodule_attrs` from simple names to child proxies. -/
inductive DeferredImportProxy where
  | mk (form : ImportForm) (submodule_attrs : List (String × DeferredImportProxy))
deriving Repr

/-- The import form of a proxy. -/
def proxyForm : DeferredImportProxy → ImportForm
  | .mk f _ => f

/-- The `submodule_attrs` children of a proxy. -/
def proxyChildren : DeferredImportProxy → List (String × DeferredImportProxy)
  | .mk _ attrs => attrs

/-- A dotted module path joined with dots, as diagnostics print it. -/
def dottedName (t : List String) : String := String.intercalate "." t

/-- Modelled from the spec: the proxy's stable textual representation, used
only for diagnostics and testing. -/
def proxyRepr (p : DeferredImportProxy) : String :=
  match proxyForm p with
  | .plain t => "<proxy for 'import " ++ dottedName t ++ "'>"
  | .sub t => "<proxy for 'import " ++ dottedName t ++ " as ...'>"
  | .fromImp m n => "<proxy for 'from " ++ dottedName m ++ " import " ++ n ++ "'>"

/-- Modelled from the spec: the deferred key (class `DeferredImportKey` of the
missing `deferred/_core.py`): the plain name string, the paired proxy, and the
one-shot `resolved` flag, initially false. -/
structure DeferredImportKey where
  name : String
  proxy : DeferredImportProxy
  resolved : Bool

/-- Stringifying a deferred key returns the plain `name` string. -/
def deferredKeyStr (k : DeferredImportKey) : String := k.name

/-- Fold a character list into a 64-bit hash accumulator. -/
def pyHashChars : List Char → Nat → Nat
  | [], h => h
  | c :: cs, h => pyHashChars cs ((h * 31 + c.toNat) % (2 ^ 64))

/-- A concrete model of the host's string hash (any fixed function works;
this one folds the characters into a 64-bit accumulator). -/
def pyHash (s : String) : Nat := pyHashChars s.data 5381

/-- The key hashes as the string it behaves as. -/
def deferredKeyHash (k : DeferredImportKey) : Nat := pyHash (deferredKeyStr k)

/-- Modelled from the spec: how the host's namespace-dict lookup recognises a
deferred key while probing with a plain string: the hashes must agree and the
key must compare equal to the probe (string equality on `name`). -/
def dictEqMatch (probe : String) (k : DeferredImportKey) : Bool :=
  if pyHash probe = deferredKeyHash k then
    (if probe = deferredKeyStr k then true else false)
  else false

/-- A namespace key: an ordinary string, or a deferred key. -/
inductive NsEntryKey where
  | plain (s : String)
  | deferredKey (k : DeferredImportKey)

/-- The string a namespace key displays and compares as. -/
def entryName : NsEntryKey → String
  | .plain s => s
  | .deferredKey k => k.name

/-- A runtime value bound in a namespace: a module object (identified by its
fully qualified name), an attribute fetched from a module, or an unresolved
proxy. -/
inductive Value where
  | mod (fullname : List String)
  | attr (modname : List String) (a : String)
  | proxyV (p : DeferredImportProxy)

/-- A namespace: an ordered association of keys to values. -/
abbrev Ns := List (NsEntryKey × Value)

/-- Modelled from the spec: the state the runtime protocol reads and writes:
the host's module table `sysModules` (the set of loaded fully qualified
names), the namespaces of loaded module objects, and the namespace of the
module executing the marker block. -/
structure RuntimeState where
  sysModules : List (List String)
  moduleNs : List (List String × Ns)
  localNs : Ns

/-- The initial state: the given module table, no tracked module namespaces,
an empty local namespace. -/
def initState (sys0 : List (List String)) : RuntimeState :=
  ⟨sys0, [], []⟩

/-- Record a module as loaded (no change when already loaded). -/
def addModule (sys : List (List String)) (m : List String) : List (List String) :=
  if m ∈ sys then sys else sys ++ [m]

/-- The namespace tracked for a loaded module, if any. -/
def lookupNsMod : List (List String × Ns) → List String → Option Ns
  | [], _ => none
  | e :: rest, m => if e.1 = m then some e.2 else lookupNsMod rest m

/-- Replace the namespace tracked for a module. -/
def setNsMod : List (List String × Ns) → List String → Ns → List (List String × Ns)
  | [], m, ns => [(m, ns)]
  | e :: rest, m, ns => if e.1 = m then (m, ns) :: rest else e :: setNsMod rest m ns

/-- Track a module's namespace, empty, when it is not tracked yet. -/
def ensureModuleNs (mns : List (List String × Ns)) (m : List String) :
    List (List String × Ns) :=
  match lookupNsMod mns m with
  | some _ => mns
  | none => mns ++ [(m, [])]

/-- Does the namespace already hold an entry (plain or deferred) of this name? -/
def nsHasName : Ns → String → Bool
  | [], _ => false
  | (k, _) :: rest, n => if entryName k = n then true else nsHasName rest n

/-- Bind a module attribute under a plain key, unless an entry of that name
(plain or deferred) is already present. -/
def moduleSetAttrIfAbsent (mns : List (List String × Ns)) (m : List String)
    (a : String) (v : Value) : List (List String × Ns) :=
  match lookupNsMod mns m with
  | none => mns ++ [(m, [(.plain a, v)])]
  | some ns => if nsHasName ns a then mns else setNsMod mns m (ns ++ [(.plain a, v)])

/-- Modelled from the spec: the host's import primitive for a dotted target.
It loads the target and every parent package, and the import machinery
installs each loaded submodule as an attribute of its parent (unless the
parent already holds an entry of that name). -/
def doImportGo : RuntimeState → List String → List String → RuntimeState
  | st, _, [] => st
  | st, done, n :: rest =>
    let cur := done ++ [n]
    let st1 : RuntimeState :=
      { st with sysModules := addModule st.sysModules cur,
                moduleNs := ensureModuleNs st.moduleNs cur }
    let st2 : RuntimeState :=
      if done.isEmpty then st1
      else { st1 with moduleNs := moduleSetAttrIfAbsent st1.moduleNs done n (.mod cur) }
    doImportGo st2 cur rest

/-- The host's import primitive applied to a fully qualified dotted name. -/
def doImport (st : RuntimeState) (target : List String) : RuntimeState :=
  doImportGo st [] target

/-- The module the host import primitive is called for when a proxy resolves. -/
def proxyTargetModule (p : DeferredImportProxy) : List String :=
  match proxyForm p with
  | .plain t => t
  | .sub t => t
  | .fromImp m _ => m

/-- The value a resolved proxy rebinds: the top module for a plain dotted
import, the deepest submodule for a leaf-bound one, the fetched attribute for
a from-import. -/
def proxyValue (p : DeferredImportProxy) : Value :=
  match proxyForm p with
  | .plain t => .mod (t.take 1)
  | .sub t => .mod t
  | .fromImp m n => .attr m n

/-- Install one surviving child proxy as a deferred entry of the resolved
module's namespace (skipped when the name is already bound there). -/
def addChildEntry (mns : List (List String × Ns)) (m : List String) (n : String)
    (c : DeferredImportProxy) : List (List String × Ns) :=
  match lookupNsMod mns m with
  | none => mns ++ [(m, [(.deferredKey ⟨n, c, false⟩, .proxyV c)])]
  | some ns =>
    if nsHasName ns n then mns
    else setNsMod mns m (ns ++ [(.deferredKey ⟨n, c, false⟩, .proxyV c)])

/-- Install all surviving children of a resolved proxy on the resolved module. -/
def addChildren (mns : List (List String × Ns)) (m : List String) :
    List (String × DeferredImportProxy) → List (List String × Ns)
  | [] => mns
  | (n, c) :: rest => addChildren (addChildEntry mns m n c) m rest

/-- Modelled from the spec: the resolution protocol of the missing
`deferred/_core.py`.  Call the host import primitive for the proxy's target,
compute the rebind value from the import form, and, when the value is a
module object, leave the proxy's `submodule_attrs` children in place on it as
deferred entries, so `parent.child` access still goes through the on-demand
path. -/
def resolveProxy (st : RuntimeState) (p : DeferredImportProxy) :
    RuntimeState × Value :=
  let st1 := doImport st (proxyTargetModule p)
  let v := proxyValue p
  match v with
  | .mod m => ({ st1 with moduleNs := addChildren st1.moduleNs m (proxyChildren p) }, v)
  | _ => (st1, v)

/-- Modelled from the spec: the host's namespace lookup over an ordered
namespace, with a deferred key's equality side effect.  A plain key answers
purely.  The first unresolved deferred key that matches the probe resolves
its proxy and is replaced, in place, by a plain-string key bound to the
resolved value; an already resolved key answers purely. -/
def nsResolveEntry (name : String) : RuntimeState → Ns → RuntimeState × Ns × Option Value
  | st, [] => (st, [], none)
  | st, (NsEntryKey.plain s, v) :: rest =>
    if s = name then (st, (NsEntryKey.plain s, v) :: rest, some v)
    else
      let r := nsResolveEntry name st rest
      (r.1, (NsEntryKey.plain s, v) :: r.2.1, r.2.2)
  | st, (NsEntryKey.deferredKey dk, v) :: rest =>
    if dictEqMatch name dk then
      if dk.resolved then (st, (NsEntryKey.deferredKey dk, v) :: rest, some v)
      else
        let r := resolveProxy st dk.proxy
        (r.1, (NsEntryKey.plain dk.name, r.2) :: rest, some r.2)
    else
      let r := nsResolveEntry name st rest
      (r.1, (NsEntryKey.deferredKey dk, v) :: r.2.1, r.2.2)

/-- Attribute access on the module that ran the marker block: a lookup in its
own namespace, with the deferred-key side effect written back. -/
def moduleGetattrLocal (st : RuntimeState) (name : String) :
    RuntimeState × Option Value :=
  let r := nsResolveEntry name st st.localNs
  ({ r.1 with localNs := r.2.1 }, r.2.2)

/-- Attribute access on a loaded module object: a lookup in that module's
tracked namespace, with the deferred-key side effect written back. -/
def moduleGetattr (st : RuntimeState) (m : List String) (name : String) :
    RuntimeState × Option Value :=
  match lookupNsMod st.moduleNs m with
  | none => (st, none)
  | some ns =>
    let r := nsResolveEntry name st ns
    ({ r.1 with moduleNs := setNsMod r.1.moduleNs m r.2.1 }, r.2.2)

/-- A direct (non-deferred) `import target`: the host import primitive runs
and the top module is bound.  The second component is the bound value. -/
def directImport (st : RuntimeState) (target : List String) : RuntimeState × Value :=
  (doImport st target, Value.mod (target.take 1))

/-- Modelled from the spec: one import statement as it executes inside a
rewritten marker block. -/
inductive BlockImport where
  | imp (target : List String) (asname : Option String)
  | fromImp (level : Nat) (module : List String) (name : String) (asname : Option String)

/-- Resolve a possibly relative module reference against the importing
package: `level` leading dots keep `pkg` up to `level - 1` trailing parts
removed, then append the written module path. -/
def resolveRelative (pkg : List String) (level : Nat) (module : List String) :
    List String :=
  if level = 0 then module else pkg.take (pkg.length - (level - 1)) ++ module

/-- Append a fresh deferred key/proxy pair to a namespace. -/
def bindDeferred (ns : Ns) (name : String) (p : DeferredImportProxy) : Ns :=
  ns ++ [(.deferredKey ⟨name, p, false⟩, .proxyV p)]

/-- The proxy bound under a top name, if the namespace holds one. -/
def findProxyEntry : Ns → String → Option DeferredImportProxy
  | [], _ => none
  | (k, v) :: rest, n =>
    if entryName k = n then
      match v with
      | .proxyV p => some p
      | _ => none
    else findProxyEntry rest n

/-- Replace the entry bound under a name by a fresh deferred key/proxy pair
(the runtime pop/reinsert of the rewritten block). -/
def replaceProxyEntry : Ns → String → DeferredImportProxy → Ns
  | [], _, _ => []
  | (k, v) :: rest, n, p =>
    if entryName k = n then (.deferredKey ⟨n, p, false⟩, .proxyV p) :: rest
    else (k, v) :: replaceProxyEntry rest n p

/-- The child proxy registered under a simple name, if any. -/
def findChild : List (String × DeferredImportProxy) → String →
    Option DeferredImportProxy
  | [], _ => none
  | (m, c) :: rest, n => if m = n then some c else findChild rest n

/-- Register (or replace) a child proxy under a simple name. -/
def setChild : List (String × DeferredImportProxy) → String → DeferredImportProxy →
    List (String × DeferredImportProxy)
  | [], n, c => [(n, c)]
  | (m, c0) :: rest, n, c => if m = n then (n, c) :: rest else (m, c0) :: setChild rest n c

/-- Modelled from the spec: the block-local import shim's handling of a dotted
name whose top name is already bound to a proxy: child proxies are constructed
along the remaining path and attached through `submodule_attrs`, each bound to
its leaf. -/
def attachChain (p : DeferredImportProxy) (pre : List String) :
    List String → DeferredImportProxy
  | [] => p
  | n :: rest =>
    let child :=
      match findChild (proxyChildren p) n with
      | some c => c
      | none => .mk (.sub (pre ++ [n])) []
    .mk (proxyForm p) (setChild (proxyChildren p) n (attachChain child (pre ++ [n]) rest))

/-- Modelled from the spec: the net effect, on the executing module's
namespace, of one import statement inside a rewritten marker block: the
block-local shim produces a proxy instead of loading, and the appended
conditional pops the binding and reinserts it under a deferred key. -/
def runImport (pkg : List String) (st : RuntimeState) : BlockImport → RuntimeState
  | .imp target (some a) =>
    if target.length ≤ 1 then
      { st with localNs := bindDeferred st.localNs a (.mk (.plain target) []) }
    else
      { st with localNs := bindDeferred st.localNs a (.mk (.sub target) []) }
  | .imp target none =>
    match target with
    | [] => st
    | [x] => { st with localNs := bindDeferred st.localNs x (.mk (.plain [x]) []) }
    | top :: rest =>
      match findProxyEntry st.localNs top with
      | some p =>
        { st with localNs := replaceProxyEntry st.localNs top (attachChain p [top] rest) }
      | none =>
        { st with localNs := bindDeferred st.localNs top (.mk (.plain target) []) }
  | .fromImp level module n asn =>
    let p : DeferredImportProxy := .mk (.fromImp (resolveRelative pkg level module) n) []
    { st with localNs := bindDeferred st.localNs (asn.getD n) p }

/-- Execute a whole marker block: its imports in order. -/
def runBlock (pkg : List String) (imports : List BlockImport) (st : RuntimeState) :
    RuntimeState :=
  imports.foldl (runImport pkg) st

/-
The path hook install/uninstall API.
-/

/-- Modelled from the spec: the hook object `DEFERRED_PATH_HOOK` of the
missing `deferred/_core.py`, as an opaque-to-the-model marker inside the
host's `sys.path_hooks` list. -/
def DEFERRED_PATH_HOOK : String := "deferred_path_hook"

/-- Modelled from the spec: `install_defer_import_hook` inserts the deferred
path hook at the head of the finder chain, unless it is already present. -/
def install_defer_import_hook (hooks : List String) : List String :=
  if DEFERRED_PATH_HOOK ∈ hooks then hooks else DEFERRED_PATH_HOOK :: hooks

/-- Modelled from the spec: `uninstall_defer_import_hook` removes the deferred
path hook from the finder chain, a no-op when it is absent. -/
def uninstall_defer_import_hook (hooks : List String) : List String :=
  hooks.erase DEFERRED_PATH_HOOK

/-- `n` sequential calls of an operation on the finder chain. -/
def applyN (f : List String → List String) : Nat → List String → List String
  | 0, x => x
  | n + 1, x => applyN f n (f x)

/-
Theorems.  Helper lemmas first, then one theorem per claim (with a witness
where the theorem carries hypotheses).
-/

theorem stmtsContainDefer_cons (s : Stmt) (l : List Stmt) :
    stmtsContainDefer (s :: l) =
      match stmtContainsDefer s with
      | some r => some r
      | none => stmtsContainDefer l := by
  rw [stmtsContainDefer]

theorem asWithDefer_of_noDefer {s : Stmt} (h : stmtContainsDefer s = none) :
    asWithDefer s = none := by
  cases s <;> first
    | rfl
    | exact absurd h (by rw [stmtContainsDefer]; exact fun hc => Option.noConfusion hc)

theorem instrumentBlockBody_all (fn : String) :
    ∀ blk : List Stmt, blk.all isDeferBlockImport = true →
      instrumentBlockBody fn blk = .ok (rewriteBlockImports blk) := by
  intro blk
  induction blk with
  | nil => intro _; rfl
  | cons s rest ih =>
    intro h
    rw [List.all_cons, Bool.and_eq_true] at h
    simp only [instrumentBlockBody, h.1, if_true, ih h.2, rewriteBlockImports]

theorem instrumentBlockBody_err (fn : String) (bad : Stmt) (more : List Stmt)
    (hbad : isDeferBlockImport bad = false) :
    ∀ good : List Stmt, good.all isDeferBlockImport = true →
      instrumentBlockBody fn (good ++ bad :: more) =
        .error ⟨fn, (stmtLoc bad).lineno, (stmtLoc bad).offset, stmtSegment bad⟩ := by
  intro good
  induction good with
  | nil => intro _; simp only [List.nil_append, instrumentBlockBody, hbad]; rfl
  | cons s rest ih =>
    intro h
    rw [List.all_cons, Bool.and_eq_true] at h
    simp only [List.cons_append, instrumentBlockBody, h.1, if_true, List.append_eq]
    rw [ih h.2]

theorem instrumentModuleBody_append (fn : String) (rest : List Stmt) :
    ∀ pre : List Stmt, stmtsContainDefer pre = none →
      instrumentModuleBody fn (pre ++ rest) =
        match instrumentModuleBody fn rest with
        | .error e => .error e
        | .ok (out, found) => .ok (pre.map .orig ++ out, found) := by
  intro pre
  induction pre with
  | nil =>
    intro _
    simp only [List.nil_append, List.map_nil]
    cases h' : instrumentModuleBody fn rest with
    | error e => rfl
    | ok r => obtain ⟨out, found⟩ := r; simp
  | cons s pre ih =>
    intro h
    rw [stmtsContainDefer_cons] at h
    cases hc : stmtContainsDefer s with
    | some r => rw [hc] at h; exact absurd h (by simp)
    | none =>
      rw [hc] at h
      have hw := asWithDefer_of_noDefer hc
      simp only [List.cons_append, instrumentModuleBody, hw, hc, List.append_eq]
      rw [ih h]
      cases h' : instrumentModuleBody fn rest with
      | error e => rfl
      | ok r => obtain ⟨out, found⟩ := r; simp

theorem stmtsContainDefer_append_with (wbody : List Stmt) (wloc : Loc) (wseg : String)
    (wrest : List Stmt) :
    ∀ cpre : List Stmt, stmtsContainDefer cpre = none →
      stmtsContainDefer (cpre ++ Stmt.withDefer wbody wloc wseg :: wrest) =
        some (wloc, wseg) := by
  intro cpre
  induction cpre with
  | nil => intro _; rw [List.nil_append, stmtsContainDefer_cons]; rfl
  | cons s rest ih =>
    intro h
    rw [stmtsContainDefer_cons] at h
    rw [List.cons_append, stmtsContainDefer_cons]
    cases hc : stmtContainsDefer s with
    | some r => rw [hc] at h; exact absurd h (by simp)
    | none => rw [hc] at h; exact ih h

/-- C2: for a source file with one module-level marker block whose body is all
plain imports and from-imports, the instrumenter produces exactly the rewrite
schema: the single reserved import of the key and proxy classes first in the
file; `locals()` capture and temp-proxy initialisation at the start of the
block body; each original import left in place followed by its conditional
pop/reinsert under a deferred key, one per bound name; deletion of the two
reserved block variables at the end of the block; and deletion of the two
reserved class aliases after the block. -/
theorem claim_C2_instrument_schema (fn : String) (pre blk post : List Stmt)
    (loc : Loc) (seg : String)
    (hpre : stmtsContainDefer pre = none)
    (hblk : blk.all isDeferBlockImport = true)
    (hpost : stmtsContainDefer post = none) :
    instrument fn (pre ++ Stmt.withDefer blk loc seg :: post) =
      .ok (.importKeyProxyClasses keyClassAlias proxyClassAlias ::
        (pre.map .orig ++
          (.withDeferOut
              (.captureLocals localNsVar :: .initTempProxy tempProxyVar ::
                (rewriteBlockImports blk ++ [.delName tempProxyVar, .delName localNsVar])) ::
           .delName keyClassAlias :: .delName proxyClassAlias :: post.map .orig))) := by
  have hpost2 : instrumentModuleBody fn post = .ok (post.map .orig, false) := by
    have h2 := instrumentModuleBody_append fn [] post hpost
    simpa [instrumentModuleBody] using h2
  have hmid : instrumentModuleBody fn (Stmt.withDefer blk loc seg :: post) =
      .ok (.withDeferOut
            (.captureLocals localNsVar :: .initTempProxy tempProxyVar ::
              (rewriteBlockImports blk ++ [.delName tempProxyVar, .delName localNsVar])) ::
           .delName keyClassAlias :: .delName proxyClassAlias :: post.map .orig, true) := by
    simp only [instrumentModuleBody, asWithDefer, instrumentBlockBody_all fn blk hblk, hpost2]
  have hall := instrumentModuleBody_append fn (Stmt.withDefer blk loc seg :: post) pre hpre
  rw [hmid] at hall
  simp only [instrument, hall, if_true]

/-- Witness for C2 at the repository's "regular import" instrumentation test:
`from deferred import defer_imports_until_use` followed by a marker block
holding `import inspect`. -/
theorem claim_C2_instrument_schema_witness :
    stmtsContainDefer
        [Stmt.importFrom 0 ["deferred"] [("defer_imports_until_use", none)] ⟨1, 1⟩
          "from deferred import defer_imports_until_use"] = none
    ∧ ([Stmt.importStmt [(["inspect"], none)] ⟨4, 5⟩ "import inspect"]).all
        isDeferBlockImport = true
    ∧ stmtsContainDefer ([] : List Stmt) = none
    ∧ instrument "<unknown>"
        [Stmt.importFrom 0 ["deferred"] [("defer_imports_until_use", none)] ⟨1, 1⟩
           "from deferred import defer_imports_until_use",
         Stmt.withDefer [Stmt.importStmt [(["inspect"], none)] ⟨4, 5⟩ "import inspect"]
           ⟨3, 1⟩ "with defer_imports_until_use:\n    import inspect"] =
        .ok [.importKeyProxyClasses keyClassAlias proxyClassAlias,
             .orig (Stmt.importFrom 0 ["deferred"] [("defer_imports_until_use", none)] ⟨1, 1⟩
               "from deferred import defer_imports_until_use"),
             .withDeferOut
               [.captureLocals localNsVar, .initTempProxy tempProxyVar,
                .orig (Stmt.importStmt [(["inspect"], none)] ⟨4, 5⟩ "import inspect"),
                .ifProxyRebind "inspect" proxyClassAlias localNsVar keyClassAlias tempProxyVar,
                .delName tempProxyVar, .delName localNsVar],
             .delName keyClassAlias, .delName proxyClassAlias] :=
  ⟨rfl, rfl, rfl, by
    simpa using claim_C2_instrument_schema "<unknown>"
      [Stmt.importFrom 0 ["deferred"] [("defer_imports_until_use", none)] ⟨1, 1⟩
        "from deferred import defer_imports_until_use"]
      [Stmt.importStmt [(["inspect"], none)] ⟨4, 5⟩ "import inspect"]
      [] ⟨3, 1⟩ "with defer_imports_until_use:\n    import inspect" rfl rfl rfl⟩

/-- C4: a marker block containing any statement other than a plain import or a
(non-wildcard) from-import — including `from M import *` — makes loading fail
at instrumentation time: `instrument` returns the host's syntax-error carrying
the source filename, the offending statement's one-based line and column, and
its exact source text, and produces no rewritten module. -/
theorem claim_C4_reject_non_import (fn : String) (pre good more post : List Stmt)
    (bad : Stmt) (loc : Loc) (seg : String)
    (hpre : stmtsContainDefer pre = none)
    (hgood : good.all isDeferBlockImport = true)
    (hbad : isDeferBlockImport bad = false) :
    instrument fn (pre ++ Stmt.withDefer (good ++ bad :: more) loc seg :: post) =
      .error ⟨fn, (stmtLoc bad).lineno, (stmtLoc bad).offset, stmtSegment bad⟩ := by
  have hmid : instrumentModuleBody fn (Stmt.withDefer (good ++ bad :: more) loc seg :: post) =
      .error ⟨fn, (stmtLoc bad).lineno, (stmtLoc bad).offset, stmtSegment bad⟩ := by
    simp only [instrumentModuleBody, asWithDefer,
      instrumentBlockBody_err fn bad more hbad good hgood]
  have hall := instrumentModuleBody_append fn
    (Stmt.withDefer (good ++ bad :: more) loc seg :: post) pre hpre
  rw [hmid] at hall
  simp only [instrument, hall]

/-- Witness for C4 at the repository's wildcard-import test: a marker block
holding `from typing import *` is rejected at line 4, column 5, with the
statement's own source text. -/
theorem claim_C4_reject_non_import_witness :
    stmtsContainDefer
        [Stmt.importFrom 0 ["deferred"] [("defer_imports_until_use", none)] ⟨1, 1⟩
          "from deferred import defer_imports_until_use"] = none
    ∧ ([] : List Stmt).all isDeferBlockImport = true
    ∧ isDeferBlockImport (Stmt.importFromStar 0 ["typing"] ⟨4, 5⟩ "from typing import *") = false
    ∧ instrument "/tmp/sample.py"
        [Stmt.importFrom 0 ["deferred"] [("defer_imports_until_use", none)] ⟨1, 1⟩
           "from deferred import defer_imports_until_use",
         Stmt.withDefer [Stmt.importFromStar 0 ["typing"] ⟨4, 5⟩ "from typing import *"]
           ⟨3, 1⟩ "with defer_imports_until_use:\n    from typing import *"] =
        .error ⟨"/tmp/sample.py", 4, 5, "from typing import *"⟩ :=
  ⟨rfl, rfl, rfl, by
    simpa using claim_C4_reject_non_import "/tmp/sample.py"
      [Stmt.importFrom 0 ["deferred"] [("defer_imports_until_use", none)] ⟨1, 1⟩
        "from deferred import defer_imports_until_use"]
      [] [] []
      (Stmt.importFromStar 0 ["typing"] ⟨4, 5⟩ "from typing import *")
      ⟨3, 1⟩ "with defer_imports_until_use:\n    from typing import *" rfl rfl rfl⟩

/-- C10: a marker block nested in a class body or in a function body is
rejected with a syntax-error whose line and column are those of the `with`
statement itself (not of any import inside it) and whose text field is the
statement's complete source segment — the full multi-line block including the
`with` header line, as carried by the `withDefer` node. -/
theorem claim_C10_nested_block_error (fn cname fname : String)
    (pre cpre wbody wrest rest : List Stmt) (wloc cloc : Loc) (wseg cseg : String)
    (hpre : stmtsContainDefer pre = none)
    (hcpre : stmtsContainDefer cpre = none) :
    instrument fn
        (pre ++ Stmt.classDef cname (cpre ++ Stmt.withDefer wbody wloc wseg :: wrest)
          cloc cseg :: rest) =
      .error ⟨fn, wloc.lineno, wloc.offset, wseg⟩
    ∧ instrument fn
        (pre ++ Stmt.funcDef fname (cpre ++ Stmt.withDefer wbody wloc wseg :: wrest)
          cloc cseg :: rest) =
      .error ⟨fn, wloc.lineno, wloc.offset, wseg⟩ := by
  have hin := stmtsContainDefer_append_with wbody wloc wseg wrest cpre hcpre
  constructor
  · have hmid : instrumentModuleBody fn
        (Stmt.classDef cname (cpre ++ Stmt.withDefer wbody wloc wseg :: wrest)
          cloc cseg :: rest) =
        .error ⟨fn, wloc.lineno, wloc.offset, wseg⟩ := by
      simp only [instrumentModuleBody, asWithDefer, stmtContainsDefer, hin]
    have hall := instrumentModuleBody_append fn
      (Stmt.classDef cname (cpre ++ Stmt.withDefer wbody wloc wseg :: wrest)
        cloc cseg :: rest) pre hpre
    rw [hmid] at hall
    simp only [instrument, hall]
  · have hmid : instrumentModuleBody fn
        (Stmt.funcDef fname (cpre ++ Stmt.withDefer wbody wloc wseg :: wrest)
          cloc cseg :: rest) =
        .error ⟨fn, wloc.lineno, wloc.offset, wseg⟩ := by
      simp only [instrumentModuleBody, asWithDefer, stmtContainsDefer, hin]
    have hall := instrumentModuleBody_append fn
      (Stmt.funcDef fname (cpre ++ Stmt.withDefer wbody wloc wseg :: wrest)
        cloc cseg :: rest) pre hpre
    rw [hmid] at hall
    simp only [instrument, hall]

/-- Witness for C10 at the repository's class-scope test: the block
`with defer_imports_until_use: from inspect import signature` inside
`class Example` is rejected at line 4, column 5, with the block's complete
multi-line source (header line included) as the text field. -/
theorem claim_C10_nested_block_error_witness :
    stmtsContainDefer
        [Stmt.importFrom 0 ["deferred"] [("defer_imports_until_use", none)] ⟨1, 1⟩
          "from deferred import defer_imports_until_use"] = none
    ∧ stmtsContainDefer ([] : List Stmt) = none
    ∧ instrument "/tmp/sample.py"
        [Stmt.importFrom 0 ["deferred"] [("defer_imports_until_use", none)] ⟨1, 1⟩
           "from deferred import defer_imports_until_use",
         Stmt.classDef "Example"
           [Stmt.withDefer
             [Stmt.importFrom 0 ["inspect"] [("signature", none)] ⟨5, 9⟩
               "from inspect import signature"]
             ⟨4, 5⟩ "    with defer_imports_until_use:\n        from inspect import signature"]
           ⟨3, 1⟩ "class Example: ..."] =
        .error ⟨"/tmp/sample.py", 4, 5,
          "    with defer_imports_until_use:\n        from inspect import signature"⟩ :=
  ⟨rfl, rfl, by
    simpa using (claim_C10_nested_block_error "/tmp/sample.py" "Example" "unused"
      [Stmt.importFrom 0 ["deferred"] [("defer_imports_until_use", none)] ⟨1, 1⟩
        "from deferred import defer_imports_until_use"]
      []
      [Stmt.importFrom 0 ["inspect"] [("signature", none)] ⟨5, 9⟩
        "from inspect import signature"]
      [] [] ⟨4, 5⟩ ⟨3, 1⟩
      "    with defer_imports_until_use:\n        from inspect import signature"
      "class Example: ..." rfl rfl).1⟩

/-- C9: relative imports (`from . import a`, `from .a import A`) inside a
marker block are accepted by the instrumenter and rewritten with the same
pop/reinsert schema as absolute from-imports; at runtime each produces a
deferred entry whose proxy diagnostics show the resolved absolute package
name (`from sample_package import a`, `from sample_package.a import A`), and
each entry resolves on its first attribute access. -/
theorem claim_C9_relative_imports (fn : String) :
    instrument fn
        [Stmt.withDefer
          [Stmt.importFrom 1 [] [("a", none)] ⟨4, 5⟩ "from . import a",
           Stmt.importFrom 1 ["a"] [("A", none)] ⟨5, 5⟩ "from .a import A"]
          ⟨3, 1⟩ "with defer_imports_until_use:\n    from . import a\n    from .a import A"] =
      .ok [.importKeyProxyClasses keyClassAlias proxyClassAlias,
           .withDeferOut
             [.captureLocals localNsVar, .initTempProxy tempProxyVar,
              .orig (Stmt.importFrom 1 [] [("a", none)] ⟨4, 5⟩ "from . import a"),
              .ifProxyRebind "a" proxyClassAlias localNsVar keyClassAlias tempProxyVar,
              .orig (Stmt.importFrom 1 ["a"] [("A", none)] ⟨5, 5⟩ "from .a import A"),
              .ifProxyRebind "A" proxyClassAlias localNsVar keyClassAlias tempProxyVar,
              .delName tempProxyVar, .delName localNsVar],
           .delName keyClassAlias, .delName proxyClassAlias]
    ∧ (runBlock ["sample_package"]
        [.fromImp 1 [] "a" none, .fromImp 1 ["a"] "A" none] (initState [])).localNs =
      [(.deferredKey ⟨"a", .mk (.fromImp ["sample_package"] "a") [], false⟩,
        .proxyV (.mk (.fromImp ["sample_package"] "a") [])),
       (.deferredKey ⟨"A", .mk (.fromImp ["sample_package", "a"] "A") [], false⟩,
        .proxyV (.mk (.fromImp ["sample_package", "a"] "A") []))]
    ∧ proxyRepr (.mk (.fromImp (resolveRelative ["sample_package"] 1 []) "a") []) =
      "<proxy for 'from sample_package import a'>"
    ∧ proxyRepr (.mk (.fromImp (resolveRelative ["sample_package"] 1 ["a"]) "A") []) =
      "<proxy for 'from sample_package.a import A'>"
    ∧ (moduleGetattrLocal
        (runBlock ["sample_package"]
          [.fromImp 1 [] "a" none, .fromImp 1 ["a"] "A" none] (initState [])) "a").2 =
      some (.attr ["sample_package"] "a")
    ∧ (moduleGetattrLocal
        (runBlock ["sample_package"]
          [.fromImp 1 [] "a" none, .fromImp 1 ["a"] "A" none] (initState [])) "a").1.localNs =
      [(.plain "a", .attr ["sample_package"] "a"),
       (.deferredKey ⟨"A", .mk (.fromImp ["sample_package", "a"] "A") [], false⟩,
        .proxyV (.mk (.fromImp ["sample_package", "a"] "A") []))] :=
  ⟨rfl, rfl, rfl, rfl, rfl, rfl⟩

theorem dictEqMatch_eq (probe : String) (k : DeferredImportKey) :
    dictEqMatch probe k = decide (probe = k.name) := by
  unfold dictEqMatch deferredKeyHash deferredKeyStr
  by_cases h1 : pyHash probe = pyHash k.name
  · by_cases h2 : probe = k.name
    · simp [h1, h2]
    · simp [h1, h2]
  · have h2 : probe ≠ k.name := fun he => h1 (by rw [he])
    simp [h1, h2]

/-- C1: for `import X` inside a marker block, immediately after the block the
local namespace holds a deferred key/proxy entry for `X` while `X` is absent
from the module table; the first attribute access on the binding resolves it,
after which the namespace holds `X` under a plain-string key bound to the very
same module object a direct (non-deferred) import binds, `X` is in the module
table, and the deferred entry is gone. -/
theorem claim_C1_laziness_and_rebinding (X : String) (sys0 : List (List String))
    (h : [X] ∉ sys0) :
    (runBlock [] [.imp [X] none] (initState sys0)).localNs =
      [(.deferredKey ⟨X, .mk (.plain [X]) [], false⟩, .proxyV (.mk (.plain [X]) []))]
    ∧ (runBlock [] [.imp [X] none] (initState sys0)).sysModules = sys0
    ∧ [X] ∉ (runBlock [] [.imp [X] none] (initState sys0)).sysModules
    ∧ (moduleGetattrLocal (runBlock [] [.imp [X] none] (initState sys0)) X).2 =
        some ((directImport (initState sys0) [X]).2)
    ∧ (moduleGetattrLocal (runBlock [] [.imp [X] none] (initState sys0)) X).1.localNs =
        [(.plain X, (directImport (initState sys0) [X]).2)]
    ∧ [X] ∈ (moduleGetattrLocal (runBlock [] [.imp [X] none] (initState sys0)) X).1.sysModules := by
  simp [runBlock, runImport, bindDeferred, initState, moduleGetattrLocal, nsResolveEntry,
    dictEqMatch, deferredKeyHash, deferredKeyStr, resolveProxy, doImport, doImportGo,
    addModule, ensureModuleNs, lookupNsMod, proxyValue, proxyTargetModule, proxyForm,
    proxyChildren, addChildren, directImport, h]

/-- Witness for C1 at `import inspect` against an empty module table. -/
theorem claim_C1_laziness_and_rebinding_witness :
    ["inspect"] ∉ ([] : List (List String))
    ∧ ((runBlock [] [.imp ["inspect"] none] (initState [])).localNs =
        [(.deferredKey ⟨"inspect", .mk (.plain ["inspect"]) [], false⟩,
          .proxyV (.mk (.plain ["inspect"]) []))]
      ∧ (runBlock [] [.imp ["inspect"] none] (initState [])).sysModules = []
      ∧ ["inspect"] ∉ (runBlock [] [.imp ["inspect"] none] (initState [])).sysModules
      ∧ (moduleGetattrLocal (runBlock [] [.imp ["inspect"] none] (initState [])) "inspect").2 =
          some ((directImport (initState []) ["inspect"]).2)
      ∧ (moduleGetattrLocal (runBlock [] [.imp ["inspect"] none] (initState []))
            "inspect").1.localNs =
          [(.plain "inspect", (directImport (initState []) ["inspect"]).2)]
      ∧ ["inspect"] ∈ (moduleGetattrLocal (runBlock [] [.imp ["inspect"] none] (initState []))
            "inspect").1.sysModules) :=
  ⟨by simp, claim_C1_laziness_and_rebinding "inspect" [] (by simp)⟩

/-- C5: for `import A.B.C as X` inside a marker block, only the alias `X` is
ever bound — looking up `A` answers nothing (a name error) both before and
after resolution — and resolving `X` yields the deepest submodule `A.B.C`,
the same module object the attribute chain `A.B.C` reaches on the fully
imported package. -/
theorem claim_C5_dotted_alias (A B C X : String) (hXA : X ≠ A) :
    (runBlock [] [.imp [A, B, C] (some X)] (initState [])).localNs =
      [(.deferredKey ⟨X, .mk (.sub [A, B, C]) [], false⟩, .proxyV (.mk (.sub [A, B, C]) []))]
    ∧ (moduleGetattrLocal (runBlock [] [.imp [A, B, C] (some X)] (initState [])) A).2 = none
    ∧ (moduleGetattrLocal (runBlock [] [.imp [A, B, C] (some X)] (initState [])) X).2 =
        some (.mod [A, B, C])
    ∧ (moduleGetattrLocal (runBlock [] [.imp [A, B, C] (some X)] (initState [])) X).1.localNs =
        [(.plain X, .mod [A, B, C])]
    ∧ (moduleGetattrLocal
        ((moduleGetattrLocal (runBlock [] [.imp [A, B, C] (some X)] (initState [])) X).1) A).2 =
        none
    ∧ (moduleGetattr
        ((moduleGetattr (doImport (initState []) [A, B, C]) [A] B).1) [A, B] C).2 =
        some (.mod [A, B, C])
    ∧ (moduleGetattr (doImport (initState []) [A, B, C]) [A] B).2 = some (.mod [A, B]) := by
  have hAX : A ≠ X := Ne.symm hXA
  refine ⟨?_, ?_, ?_, ?_, ?_, ?_, ?_⟩ <;>
    simp [runBlock, runImport, bindDeferred, initState, moduleGetattrLocal, moduleGetattr,
      nsResolveEntry, dictEqMatch_eq, resolveProxy, doImport, doImportGo, addModule,
      ensureModuleNs, lookupNsMod, setNsMod, nsHasName, moduleSetAttrIfAbsent, entryName,
      proxyValue, proxyTargetModule, proxyForm, proxyChildren, addChildren, hXA, hAX]

/-- Witness for C5 at `import collections.abc.cde as xyz`. -/
theorem claim_C5_dotted_alias_witness :
    "xyz" ≠ "collections"
    ∧ ((runBlock [] [.imp ["collections", "abc", "cde"] (some "xyz")] (initState [])).localNs =
        [(.deferredKey ⟨"xyz", .mk (.sub ["collections", "abc", "cde"]) [], false⟩,
          .proxyV (.mk (.sub ["collections", "abc", "cde"]) []))]
      ∧ (moduleGetattrLocal
          (runBlock [] [.imp ["collections", "abc", "cde"] (some "xyz")] (initState []))
          "collections").2 = none
      ∧ (moduleGetattrLocal
          (runBlock [] [.imp ["collections", "abc", "cde"] (some "xyz")] (initState []))
          "xyz").2 = some (.mod ["collections", "abc", "cde"])
      ∧ (moduleGetattrLocal
          (runBlock [] [.imp ["collections", "abc", "cde"] (some "xyz")] (initState []))
          "xyz").1.localNs = [(.plain "xyz", .mod ["collections", "abc", "cde"])]
      ∧ (moduleGetattrLocal
          ((moduleGetattrLocal
            (runBlock [] [.imp ["collections", "abc", "cde"] (some "xyz")] (initState []))
            "xyz").1) "collections").2 = none
      ∧ (moduleGetattr
          ((moduleGetattr (doImport (initState []) ["collections", "abc", "cde"])
            ["collections"] "abc").1) ["collections", "abc"] "cde").2 =
          some (.mod ["collections", "abc", "cde"])
      ∧ (moduleGetattr (doImport (initState []) ["collections", "abc", "cde"])
          ["collections"] "abc").2 = some (.mod ["collections", "abc"])) :=
  ⟨by decide, claim_C5_dotted_alias "collections" "abc" "cde" "xyz" (by decide)⟩

/-- C6: deferring a parent and its submodules in one block (`import A`,
`import A.B`, `import A.C`) leaves one deferred entry whose proxy carries
child proxies for `B` and `C`; resolving the parent installs both children as
deferred entries inside the resolved module object `A`, and each child still
resolves on-demand, independently, on its own first access (resolving `B`
leaves `C` deferred). -/
theorem claim_C6_submodule_children (A B C : String) (hBC : B ≠ C) :
    (runBlock [] [.imp [A] none, .imp [A, B] none, .imp [A, C] none] (initState [])).localNs =
      [(.deferredKey
          ⟨A, .mk (.plain [A]) [(B, .mk (.sub [A, B]) []), (C, .mk (.sub [A, C]) [])], false⟩,
        .proxyV (.mk (.plain [A]) [(B, .mk (.sub [A, B]) []), (C, .mk (.sub [A, C]) [])]))]
    ∧ (moduleGetattrLocal
        (runBlock [] [.imp [A] none, .imp [A, B] none, .imp [A, C] none] (initState [])) A).2 =
      some (.mod [A])
    ∧ lookupNsMod
        (moduleGetattrLocal
          (runBlock [] [.imp [A] none, .imp [A, B] none, .imp [A, C] none]
            (initState [])) A).1.moduleNs [A] =
      some [(.deferredKey ⟨B, .mk (.sub [A, B]) [], false⟩, .proxyV (.mk (.sub [A, B]) [])),
            (.deferredKey ⟨C, .mk (.sub [A, C]) [], false⟩, .proxyV (.mk (.sub [A, C]) []))]
    ∧ (moduleGetattr
        (moduleGetattrLocal
          (runBlock [] [.imp [A] none, .imp [A, B] none, .imp [A, C] none] (initState [])) A).1
        [A] B).2 = some (.mod [A, B])
    ∧ lookupNsMod
        (moduleGetattr
          (moduleGetattrLocal
            (runBlock [] [.imp [A] none, .imp [A, B] none, .imp [A, C] none] (initState [])) A).1
          [A] B).1.moduleNs [A] =
      some [(.plain B, .mod [A, B]),
            (.deferredKey ⟨C, .mk (.sub [A, C]) [], false⟩, .proxyV (.mk (.sub [A, C]) []))]
    ∧ (moduleGetattr
        (moduleGetattr
          (moduleGetattrLocal
            (runBlock [] [.imp [A] none, .imp [A, B] none, .imp [A, C] none] (initState [])) A).1
          [A] B).1
        [A] C).2 = some (.mod [A, C])
    ∧ lookupNsMod
        (moduleGetattr
          (moduleGetattr
            (moduleGetattrLocal
              (runBlock [] [.imp [A] none, .imp [A, B] none, .imp [A, C] none]
                (initState [])) A).1
            [A] B).1
          [A] C).1.moduleNs [A] =
      some [(.plain B, .mod [A, B]), (.plain C, .mod [A, C])] := by
  have hCB : C ≠ B := Ne.symm hBC
  refine ⟨?_, ?_, ?_, ?_, ?_, ?_, ?_⟩ <;>
    simp [runBlock, runImport, bindDeferred, initState, moduleGetattrLocal, moduleGetattr,
      nsResolveEntry, dictEqMatch_eq, resolveProxy, doImport, doImportGo, addModule,
      ensureModuleNs, lookupNsMod, setNsMod, nsHasName, moduleSetAttrIfAbsent, entryName,
      proxyValue, proxyTargetModule, proxyForm, proxyChildren, addChildren, addChildEntry,
      findProxyEntry, replaceProxyEntry, attachChain, findChild, setChild, hBC, hCB]

/-- Witness for C6 at `import importlib` with `import importlib.abc` and
with `import importlib.util` in the same block. -/
theorem claim_C6_submodule_children_witness :
    "abc" ≠ "util"
    ∧ ((runBlock [] [.imp ["importlib"] none, .imp ["importlib", "abc"] none,
          .imp ["importlib", "util"] none] (initState [])).localNs =
        [(.deferredKey
            ⟨"importlib", .mk (.plain ["importlib"])
              [("abc", .mk (.sub ["importlib", "abc"]) []),
               ("util", .mk (.sub ["importlib", "util"]) [])], false⟩,
          .proxyV (.mk (.plain ["importlib"])
            [("abc", .mk (.sub ["importlib", "abc"]) []),
             ("util", .mk (.sub ["importlib", "util"]) [])]))]
      ∧ (moduleGetattrLocal
          (runBlock [] [.imp ["importlib"] none, .imp ["importlib", "abc"] none,
            .imp ["importlib", "util"] none] (initState [])) "importlib").2 =
        some (.mod ["importlib"])
      ∧ lookupNsMod
          (moduleGetattrLocal
            (runBlock [] [.imp ["importlib"] none, .imp ["importlib", "abc"] none,
              .imp ["importlib", "util"] none] (initState [])) "importlib").1.moduleNs
          ["importlib"] =
        some [(.deferredKey ⟨"abc", .mk (.sub ["importlib", "abc"]) [], false⟩,
                .proxyV (.mk (.sub ["importlib", "abc"]) [])),
              (.deferredKey ⟨"util", .mk (.sub ["importlib", "util"]) [], false⟩,
                .proxyV (.mk (.sub ["importlib", "util"]) []))]
      ∧ (moduleGetattr
          (moduleGetattrLocal
            (runBlock [] [.imp ["importlib"] none, .imp ["importlib", "abc"] none,
              .imp ["importlib", "util"] none] (initState [])) "importlib").1
          ["importlib"] "abc").2 = some (.mod ["importlib", "abc"])
      ∧ lookupNsMod
          (moduleGetattr
            (moduleGetattrLocal
              (runBlock [] [.imp ["importlib"] none, .imp ["importlib", "abc"] none,
                .imp ["importlib", "util"] none] (initState [])) "importlib").1
            ["importlib"] "abc").1.moduleNs ["importlib"] =
        some [(.plain "abc", .mod ["importlib", "abc"]),
              (.deferredKey ⟨"util", .mk (.sub ["importlib", "util"]) [], false⟩,
                .proxyV (.mk (.sub ["importlib", "util"]) []))]
      ∧ (moduleGetattr
          (moduleGetattr
            (moduleGetattrLocal
              (runBlock [] [.imp ["importlib"] none, .imp ["importlib", "abc"] none,
                .imp ["importlib", "util"] none] (initState [])) "importlib").1
            ["importlib"] "abc").1
          ["importlib"] "util").2 = some (.mod ["importlib", "util"])
      ∧ lookupNsMod
          (moduleGetattr
            (moduleGetattr
              (moduleGetattrLocal
                (runBlock [] [.imp ["importlib"] none, .imp ["importlib", "abc"] none,
                  .imp ["importlib", "util"] none] (initState [])) "importlib").1
              ["importlib"] "abc").1
            ["importlib"] "util").1.moduleNs ["importlib"] =
        some [(.plain "abc", .mod ["importlib", "abc"]),
              (.plain "util", .mod ["importlib", "util"])]) :=
  ⟨by decide, claim_C6_submodule_children "importlib" "abc" "util" (by decide)⟩

theorem nsResolveEntry_filter_ne (name : String) (st : RuntimeState) (ns : Ns) :
    ((nsResolveEntry name st ns).2.1).filter (fun e => decide (entryName e.1 ≠ name)) =
      ns.filter (fun e => decide (entryName e.1 ≠ name)) := by
  induction ns generalizing st with
  | nil => rfl
  | cons e rest ih =>
    obtain ⟨k, v⟩ := e
    cases k with
    | plain s =>
      by_cases hs : s = name
      · rw [nsResolveEntry, if_pos hs]
      · rw [nsResolveEntry, if_neg hs]
        simp only [List.filter_cons]
        rw [ih]
    | deferredKey dk =>
      have e2 : entryName (NsEntryKey.deferredKey dk) = dk.name := rfl
      by_cases hm : dictEqMatch name dk = true
      · have hname : dk.name = name := by
          rw [dictEqMatch_eq] at hm
          exact (of_decide_eq_true hm).symm
        rw [nsResolveEntry, if_pos hm]
        cases hr : dk.resolved
        · have e3 : entryName (NsEntryKey.plain name) = name := rfl
          simp [List.filter_cons, e2, e3, hname]
        · simp only [if_true]
      · rw [nsResolveEntry, if_neg hm]
        simp only [List.filter_cons]
        rw [ih]

/-- C7: resolving one deferred proxy changes only its own entry: every
namespace entry under any other name — in particular every sibling deferred
entry, still carrying `resolved = false` — is left exactly as it was,
whatever the access order.  The closed conjuncts replay the
same-source-module scenario (`import asyncio; from asyncio import
base_events; from asyncio import base_futures`): resolving `base_futures`
and then `base_events` each time leaves the remaining deferred entries in
place and unresolved. -/
theorem claim_C7_sibling_independence (st : RuntimeState) (name : String) :
    ((moduleGetattrLocal st name).1.localNs).filter (fun e => decide (entryName e.1 ≠ name)) =
      st.localNs.filter (fun e => decide (entryName e.1 ≠ name))
    ∧ (moduleGetattrLocal
        (runBlock [] [.imp ["asyncio"] none, .fromImp 0 ["asyncio"] "base_events" none,
          .fromImp 0 ["asyncio"] "base_futures" none] (initState [])) "base_futures").1.localNs =
      [(.deferredKey ⟨"asyncio", .mk (.plain ["asyncio"]) [], false⟩,
        .proxyV (.mk (.plain ["asyncio"]) [])),
       (.deferredKey ⟨"base_events", .mk (.fromImp ["asyncio"] "base_events") [], false⟩,
        .proxyV (.mk (.fromImp ["asyncio"] "base_events") [])),
       (.plain "base_futures", .attr ["asyncio"] "base_futures")]
    ∧ (moduleGetattrLocal
        (moduleGetattrLocal
          (runBlock [] [.imp ["asyncio"] none, .fromImp 0 ["asyncio"] "base_events" none,
            .fromImp 0 ["asyncio"] "base_futures" none] (initState []))
          "base_futures").1 "base_events").1.localNs =
      [(.deferredKey ⟨"asyncio", .mk (.plain ["asyncio"]) [], false⟩,
        .proxyV (.mk (.plain ["asyncio"]) [])),
       (.plain "base_events", .attr ["asyncio"] "base_events"),
       (.plain "base_futures", .attr ["asyncio"] "base_futures")] :=
  ⟨nsResolveEntry_filter_ne name st st.localNs, rfl, rfl⟩

/-- C8: a deferred key behaves as a string of its plain `name` value for
hashing and display: its hash is the hash of `name`, stringifying it returns
`name`, and a namespace probe with a plain string finds the key exactly when
the strings are equal. -/
theorem claim_C8_key_string_behaviour (k : DeferredImportKey) (s : String) :
    deferredKeyHash k = pyHash k.name
    ∧ deferredKeyStr k = k.name
    ∧ (dictEqMatch s k = true ↔ s = k.name) := by
  refine ⟨rfl, rfl, ?_⟩
  rw [dictEqMatch_eq]
  exact decide_eq_true_iff

theorem install_of_mem {l : List String} (h : DEFERRED_PATH_HOOK ∈ l) :
    install_defer_import_hook l = l := by
  unfold install_defer_import_hook
  rw [if_pos h]

theorem applyN_fix {f : List String → List String} {l : List String} (hf : f l = l) :
    ∀ n, applyN f n l = l := by
  intro n
  induction n with
  | zero => rfl
  | succ n ih => rw [applyN, hf, ih]

/-- C3: on a finder chain that does not hold the deferred path hook,
`install` adds the hook exactly once (a second call changes nothing),
`uninstall` removes it (and is a no-op when the hook is absent), and for all
N ≥ 1 and M ≥ N, N `install` calls followed by M `uninstall` calls return
the chain to its original contents. -/
theorem claim_C3_install_uninstall (hooks : List String) (N M : Nat)
    (h : DEFERRED_PATH_HOOK ∉ hooks) (hN : 1 ≤ N) (hM : N ≤ M) :
    install_defer_import_hook hooks = DEFERRED_PATH_HOOK :: hooks
    ∧ install_defer_import_hook (install_defer_import_hook hooks) =
        install_defer_import_hook hooks
    ∧ uninstall_defer_import_hook (install_defer_import_hook hooks) = hooks
    ∧ uninstall_defer_import_hook hooks = hooks
    ∧ applyN uninstall_defer_import_hook M (applyN install_defer_import_hook N hooks) =
        hooks := by
  have hins : install_defer_import_hook hooks = DEFERRED_PATH_HOOK :: hooks := by
    unfold install_defer_import_hook
    rw [if_neg h]
  have hmem : DEFERRED_PATH_HOOK ∈ DEFERRED_PATH_HOOK :: hooks := List.mem_cons_self _ _
  have hins2 : install_defer_import_hook (DEFERRED_PATH_HOOK :: hooks) =
      DEFERRED_PATH_HOOK :: hooks := install_of_mem hmem
  have herase : uninstall_defer_import_hook (DEFERRED_PATH_HOOK :: hooks) = hooks := by
    unfold uninstall_defer_import_hook
    exact List.erase_cons_head _ _
  have hnoop : uninstall_defer_import_hook hooks = hooks := by
    unfold uninstall_defer_import_hook
    exact List.erase_of_not_mem h
  refine ⟨hins, by rw [hins, hins2], by rw [hins, herase], hnoop, ?_⟩
  obtain ⟨n, rfl⟩ : ∃ n, N = n + 1 := ⟨N - 1, (Nat.succ_pred_eq_of_pos hN).symm⟩
  obtain ⟨m, rfl⟩ : ∃ m, M = m + 1 := ⟨M - 1, (Nat.succ_pred_eq_of_pos (hN.trans hM)).symm⟩
  have hinsN : applyN install_defer_import_hook (n + 1) hooks = DEFERRED_PATH_HOOK :: hooks := by
    rw [applyN, hins, applyN_fix hins2]
  have hunM : applyN uninstall_defer_import_hook (m + 1) (DEFERRED_PATH_HOOK :: hooks) =
      hooks := by
    rw [applyN, herase, applyN_fix hnoop]
  rw [hinsN, hunM]

/-- Witness for C3 on a two-element chain with N = 2 installs and
M = 3 uninstalls. -/
theorem claim_C3_install_uninstall_witness :
    DEFERRED_PATH_HOOK ∉ ["zip_hook", "file_hook"]
    ∧ 1 ≤ 2
    ∧ 2 ≤ 3
    ∧ (install_defer_import_hook ["zip_hook", "file_hook"] =
        DEFERRED_PATH_HOOK :: ["zip_hook", "file_hook"]
      ∧ install_defer_import_hook (install_defer_import_hook ["zip_hook", "file_hook"]) =
          install_defer_import_hook ["zip_hook", "file_hook"]
      ∧ uninstall_defer_import_hook (install_defer_import_hook ["zip_hook", "file_hook"]) =
          ["zip_hook", "file_hook"]
      ∧ uninstall_defer_import_hook ["zip_hook", "file_hook"] = ["zip_hook", "file_hook"]
      ∧ applyN uninstall_defer_import_hook 3
          (applyN install_defer_import_hook 2 ["zip_hook", "file_hook"]) =
          ["zip_hook", "file_hook"]) :=
  ⟨by decide, by decide, by decide,
   claim_C3_install_uninstall ["zip_hook", "file_hook"] 2 3 (by decide) (by decide) (by decide)⟩

end Deferred
